import Mathlib

/-!
Verification development for the antigravity-skills discovery-and-ranking
pipeline.  The definitions below are a shallow embedding of the JavaScript
sources under src/ (skill-ranker.js, repo-catalog.js, github-scanner.js,
scripts/consolidate.js).  JavaScript numbers are modelled as Nat/Rat
(NaN/undefined as Option-none where the code can produce them), strings as
Lean strings (JS .length agrees with Lean character count on the ASCII data
involved), and the impure clock is an explicit parameter.
-/

namespace Antigravity

/-! ## JS value helpers -/

/-- Truthiness of an optional JS string: undefined and the empty string are falsy. -/
def truthyStr : Option String → Bool
  | none => false
  | some s => s ≠ ""

/-- JS template-literal interpolation of a possibly-undefined string value:
an undefined field renders as the literal text "undefined". -/
def jsTmpl : Option String → String
  | none => "undefined"
  | some s => s

/-- JS `x || ''` on a possibly-undefined string. -/
def orEmpty : Option String → String
  | none => ""
  | some s => s

/-- JS `s.toLowerCase()` (character-wise, exact on the ASCII data involved). -/
def toLowerStr (s : String) : String := String.mk (s.data.map Char.toLower)

/-! ## Tokenization helper (skill-utils, not under src/)

Modelled from the spec: the `tokenize` helper from the generic
filesystem/metadata helpers module (skill-utils.js, absent from src/) which
the spec describes as turning text "into a lowercase token set".  We model it
as lowercasing and splitting on non-alphanumeric characters, dropping empty
fragments. -/

/-- Modelled from the spec: a token character (kept by tokenization). -/
def tokChar (c : Char) : Bool := c.isAlpha || c.isDigit

/-- Modelled from the spec: accumulate lowercase alphanumeric runs. -/
def tokenizeAux : List Char → List Char → List String
  | [], acc => if acc.isEmpty then [] else [String.mk acc.reverse]
  | c :: cs, acc =>
    if tokChar c then tokenizeAux cs (c.toLower :: acc)
    else if acc.isEmpty then tokenizeAux cs []
    else String.mk acc.reverse :: tokenizeAux cs []

/-- Modelled from the spec: `tokenize` from skill-utils — lowercase token list of a string. -/
def tokenize (s : String) : List String := tokenizeAux s.data []

/-! ## skill-ranker.js — data model -/

/-- The `source` sub-object of a discovered skill (repo metadata).
`stars`/`forks` fold the JS `|| 0` defaulting of absent fields into ℕ.
`pushedAt`: outer none = field absent/falsy; `some none` = a string that does
not parse as a date (NaN timestamp); `some (some t)` = epoch milliseconds. -/
structure Source where
  stars : ℕ
  forks : ℕ
  pushedAt : Option (Option ℚ)
  description : Option String
deriving DecidableEq

/-- A DiscoveredSkillRecord as consumed by the ranker. Optional fields model
possibly-undefined JS properties. -/
structure Skill where
  id : String
  name : Option String
  description : Option String
  tags : Option (List String)
  content : Option String
  source : Option Source
  parseErrors : Option (List String)
deriving DecidableEq

/-- An existing-catalog entry as consumed by scoreUniqueness. -/
structure ExistingSkill where
  id : String
  name : Option String
  description : Option String
deriving DecidableEq

/-! ## skill-ranker.js — jaccardSimilarity -/

/-- Embedding of `jaccardSimilarity(tokensA, tokensB)`: set-dedup both token
lists, intersection count over the first set, union by
inclusion-exclusion, rational division (JS float division modelled exactly). -/
def jaccardSimilarity (tokensA tokensB : List String) : ℚ :=
  if tokensA.isEmpty || tokensB.isEmpty then 0
  else
    let setA := tokensA.dedup
    let setB := tokensB.dedup
    let intersection := (setA.filter (fun t => setB.contains t)).length
    let union := setA.length + setB.length - intersection
    if union = 0 then 0 else (intersection : ℚ) / (union : ℚ)

/-! ## skill-ranker.js — scoreCompleteness and its pattern matchers

The regular expressions of the source are embedded as specialised matchers
over the (already lowercased) body text.  JS \s is modelled by the ASCII
whitespace characters occurring in the scanned markdown. -/

/-- Whitespace as matched by the \s character class (ASCII portion). -/
def wsChar (c : Char) : Bool := c = ' ' || c = '\t' || c = '\n' || c = '\r'

/-- Match a literal character sequence, returning the remainder. -/
def matchLit : List Char → List Char → Option (List Char)
  | [], cs => some cs
  | _ :: _, [] => none
  | p :: ps, c :: cs => if c = p then matchLit ps cs else none

/-- Match one-or-more whitespace characters (greedy), returning the remainder. -/
def matchWs1 : List Char → Option (List Char)
  | [] => none
  | c :: cs =>
    if wsChar c then
      match cs with
      | [] => some []
      | d :: ds => if wsChar d then matchWs1 (d :: ds) else some (d :: ds)
    else none

/-- Skip zero-or-more whitespace characters. -/
def skipWs : List Char → List Char
  | [] => []
  | c :: cs => if wsChar c then skipWs cs else c :: cs

/-- Does some suffix of the text satisfy the matcher (regex `test` semantics)? -/
def containsPat (p : List Char → Bool) : List Char → Bool
  | [] => p []
  | c :: cs => p (c :: cs) || containsPat p cs

/-- Matcher for `use\s+(this\s+)?skill\s+when` anchored at the current position. -/
def useSkillWhenAt (cs : List Char) : Bool :=
  match matchLit "use".data cs with
  | none => false
  | some r1 =>
    match matchWs1 r1 with
    | none => false
    | some r2 =>
      let tail := fun (r : List Char) =>
        match matchLit "skill".data r with
        | none => false
        | some r3 =>
          match matchWs1 r3 with
          | none => false
          | some r4 => (matchLit "when".data r4).isSome
      (match matchLit "this".data r2 with
       | some r3 =>
         (match matchWs1 r3 with
          | some r4 => tail r4 || tail r2
          | none => tail r2)
       | none => tail r2)

/-- Matcher for `##\s*use\s+when` anchored at the current position. -/
def hashUseWhenAt (cs : List Char) : Bool :=
  match matchLit "##".data cs with
  | none => false
  | some r1 =>
    match matchLit "use".data (skipWs r1) with
    | none => false
    | some r2 =>
      match matchWs1 r2 with
      | none => false
      | some r3 => (matchLit "when".data r3).isSome

/-- Matcher for `do\s+not\s+use` anchored at the current position. -/
def doNotUseAt (cs : List Char) : Bool :=
  match matchLit "do".data cs with
  | none => false
  | some r1 =>
    match matchWs1 r1 with
    | none => false
    | some r2 =>
      match matchLit "not".data r2 with
      | none => false
      | some r3 =>
        match matchWs1 r3 with
        | none => false
        | some r4 => (matchLit "use".data r4).isSome

/-- Matcher for `##\s*(instructions|steps|how to)` anchored at the current position. -/
def instructionsAt (cs : List Char) : Bool :=
  match matchLit "##".data cs with
  | none => false
  | some r1 =>
    let r := skipWs r1
    (matchLit "instructions".data r).isSome || (matchLit "steps".data r).isSome
      || (matchLit "how to".data r).isSome

/-- Embedding of `scoreCompleteness(skill)` from skill-ranker.js. -/
def scoreCompleteness (skill : Skill) : ℕ :=
  let s1 : ℕ :=
    match skill.name with
    | none => 0
    | some n => if n ≠ "" ∧ n ≠ skill.id ∧ 2 < n.length then 5 else 0
  let s2 : ℕ :=
    match skill.description with
    | none => 0
    | some d => if 20 < d.length then 5 else if 0 < d.length then 2 else 0
  let body := toLowerStr (orEmpty skill.content)
  let s3 : ℕ := if 100 < body.length then 3 else 0
  let s4 : ℕ :=
    if containsPat useSkillWhenAt body.data || containsPat hashUseWhenAt body.data then 4 else 0
  let s5 : ℕ := if containsPat doNotUseAt body.data then 3 else 0
  let s6 : ℕ := if containsPat instructionsAt body.data then 3 else 0
  let s7 : ℕ :=
    match skill.tags with
    | none => 0
    | some l => if 0 < l.length then 2 else 0
  min (s1 + s2 + s3 + s4 + s5 + s6 + s7) 25

/-! ## skill-ranker.js — scoreUniqueness

The JS function returns the bare number 25 when the existing list is empty
and an object otherwise; the sum type below records that union faithfully,
since the caller (rankSkill) reads `.score` off whatever comes back. -/

/-- The object shape `\x7bscore, duplicateOf, isDuplicate\x7d` returned on the non-empty paths. -/
structure UniqRec where
  score : ℕ
  duplicateOf : Option String
  isDuplicate : Bool
deriving DecidableEq

/-- Return type of scoreUniqueness: a bare number (the empty-catalog early
return) or the record shape produced by every other return statement. -/
inductive UniqResult where
  | plain (n : ℕ)
  | obj (r : UniqRec)
deriving DecidableEq

/-- JS property access `u.score` on the union: undefined (none) on the bare number. -/
def UniqResult.scoreField : UniqResult → Option ℕ
  | .plain _ => none
  | .obj r => some r.score

/-- JS property access `u.isDuplicate` on the union. -/
def UniqResult.isDupField : UniqResult → Option Bool
  | .plain _ => none
  | .obj r => some r.isDuplicate

/-- JS property access `u.duplicateOf` on the union (outer none = undefined). -/
def UniqResult.dupOfField : UniqResult → Option (Option String)
  | .plain _ => none
  | .obj r => some r.duplicateOf

/-- Tokens the ranker derives from a discovered skill for similarity
comparison: the template literal interpolates possibly-undefined fields. -/
def skillTokensOf (skill : Skill) : List String :=
  tokenize (jsTmpl skill.name ++ " " ++ jsTmpl skill.description)

/-- Tokens derived from an existing catalog entry (fields guarded by JS `|| ''`). -/
def existTokensOf (e : ExistingSkill) : List String :=
  tokenize (orEmpty e.name ++ " " ++ orEmpty e.description)

/-- Similarity of a discovered skill against one existing entry. -/
def simOf (skill : Skill) (e : ExistingSkill) : ℚ :=
  jaccardSimilarity (skillTokensOf skill) (existTokensOf e)

/-- The scan loop of scoreUniqueness: early-returns on an exact id match,
otherwise tracks the strict maximum similarity and the first entry achieving
it, then classifies by the fixed 0.7/0.5/0.3 thresholds. -/
def uniqLoop (skill : Skill) : List ExistingSkill → ℚ → Option String → UniqResult
  | [], maxSimilarity, bestMatchId =>
    if 7/10 < maxSimilarity then .obj ⟨3, bestMatchId, true⟩
    else if 1/2 < maxSimilarity then .obj ⟨10, bestMatchId, false⟩
    else if 3/10 < maxSimilarity then .obj ⟨18, none, false⟩
    else .obj ⟨25, none, false⟩
  | e :: rest, maxSimilarity, bestMatchId =>
    if e.id = skill.id then .obj ⟨0, some e.id, true⟩
    else
      let similarity := simOf skill e
      if maxSimilarity < similarity then uniqLoop skill rest similarity (some e.id)
      else uniqLoop skill rest maxSimilarity bestMatchId

/-- Embedding of `scoreUniqueness(skill, existingSkills)` from skill-ranker.js. -/
def scoreUniqueness (skill : Skill) (existingSkills : List ExistingSkill) : UniqResult :=
  match existingSkills with
  | [] => .plain 25
  | _ :: _ => uniqLoop skill existingSkills 0 none

/-! ## skill-ranker.js — scoreQuality -/

/-- Substring occurrence test (regex test of a literal pattern). -/
def containsSub (pat : List Char) (cs : List Char) : Bool :=
  containsPat (fun r => (matchLit pat r).isSome) cs

/-- Count of `^##\s` matches with the multiline flag: line starts (start of
string or just after a newline) followed by two hashes and one whitespace. -/
def countSections : List Char → ℕ
  | '#' :: '#' :: c :: rest =>
    (if wsChar c then 1 else 0) + countSectionsAfterNl (c :: rest)
  | [] => 0
  | _ :: rest => countSectionsAfterNl rest
where
  /-- Scan the rest of a line for the next newline, then re-test at the line start. -/
  countSectionsAfterNl : List Char → ℕ
  | [] => 0
  | '\n' :: rest => countSections rest
  | _ :: rest => countSectionsAfterNl rest

/-- Matcher for `##\s*safety` anchored at the current position. -/
def safetyAt (cs : List Char) : Bool :=
  match matchLit "##".data cs with
  | none => false
  | some r1 => (matchLit "safety".data (skipWs r1)).isSome

/-- Matcher for the references/examples/resources sub-path mention: the three
case-insensitive patterns with an optional plural s before the slash. -/
def refsMention (cs : List Char) : Bool :=
  containsSub "reference/".data cs || containsSub "references/".data cs
    || containsSub "example/".data cs || containsSub "examples/".data cs
    || containsSub "resource/".data cs || containsSub "resources/".data cs

/-- Embedding of `scoreQuality(skill)` from skill-ranker.js. -/
def scoreQuality (skill : Skill) : ℕ :=
  let body := orEmpty skill.content
  let descLen := (orEmpty skill.description).length
  let s1 : ℕ := if 100 < descLen then 5 else if 50 < descLen then 3 else if 20 < descLen then 1 else 0
  let s2 : ℕ :=
    if 2000 < body.length then 5
    else if 1000 < body.length then 4
    else if 500 < body.length then 3
    else if 200 < body.length then 2 else 0
  let s3 : ℕ := if containsSub "```".data body.data then 4 else 0
  let sectionCount := countSections body.data
  let s4 : ℕ := if 4 ≤ sectionCount then 4 else if 2 ≤ sectionCount then 2
    else if 1 ≤ sectionCount then 1 else 0
  let lower := toLowerStr body
  let s5 : ℕ := if refsMention lower.data then 3 else 0
  let s6 : ℕ := if containsPat safetyAt lower.data then 2 else 0
  let s7 : ℕ :=
    match skill.parseErrors with
    | none => 2
    | some l => if l.isEmpty then 2 else 0
  min (s1 + s2 + s3 + s4 + s5 + s6 + s7) 25

/-! ## skill-ranker.js — scoreRepoSignals

The impure `new Date()` of the source is an explicit `now` parameter (epoch
milliseconds); a pushedAt value that fails to parse gives a NaN months-ago,
on which every `<` comparison is false. -/

/-- Embedding of `scoreRepoSignals(skill)` from skill-ranker.js. -/
def scoreRepoSignals (now : ℚ) (skill : Skill) : ℕ :=
  let source := skill.source.getD ⟨0, 0, none, none⟩
  let stars := source.stars
  let s1 : ℕ := if 500 ≤ stars then 8 else if 100 ≤ stars then 6 else if 50 ≤ stars then 5
    else if 10 ≤ stars then 3 else if 1 ≤ stars then 1 else 0
  let forks := source.forks
  let s2 : ℕ := if 100 ≤ forks then 5 else if 20 ≤ forks then 4 else if 5 ≤ forks then 3
    else if 1 ≤ forks then 1 else 0
  let s3 : ℕ :=
    match source.pushedAt with
    | none => 0
    | some none => 0
    | some (some pushed) =>
      let monthsAgo := (now - pushed) / (1000 * 60 * 60 * 24 * 30)
      if monthsAgo < 1 then 7 else if monthsAgo < 3 then 6 else if monthsAgo < 6 then 5
      else if monthsAgo < 12 then 3 else if monthsAgo < 24 then 1 else 0
  let s4 : ℕ := if truthyStr source.description then 2 else 0
  min (s1 + s2 + s3 + s4) 25

/-! ## skill-ranker.js — assignTier and categorizeSkill -/

/-- Embedding of `assignTier(score)` from skill-ranker.js. -/
def assignTier (score : ℚ) : String :=
  if 75 ≤ score then "★★★"
  else if 50 ≤ score then "★★"
  else if 25 ≤ score then "★"
  else "⬡"

/-- Embedding of the CATEGORY_RULES constant of skill-ranker.js. -/
def CATEGORY_RULES : List (String × List String) :=
  [("security",
    ["security", "sast", "compliance", "privacy", "threat", "vulnerability", "owasp", "pci", "gdpr",
     "secrets", "risk", "malware", "forensics", "attack", "incident", "auth", "mtls", "zero", "trust"]),
   ("infrastructure",
    ["kubernetes", "k8s", "helm", "terraform", "cloud", "network", "devops", "gitops", "prometheus",
     "grafana", "observability", "monitoring", "logging", "tracing", "deployment", "istio", "linkerd",
     "service", "mesh", "slo", "sre", "oncall", "incident", "pipeline", "cicd", "ci", "cd", "kafka"]),
   ("data-ai",
    ["data", "database", "db", "sql", "postgres", "mysql", "analytics", "etl", "warehouse", "dbt",
     "ml", "ai", "llm", "rag", "vector", "embedding", "spark", "airflow", "cdc", "pipeline"]),
   ("development",
    ["python", "javascript", "typescript", "java", "golang", "go", "rust", "csharp", "dotnet", "php",
     "ruby", "node", "react", "frontend", "backend", "mobile", "ios", "android", "flutter", "fastapi",
     "django", "nextjs", "vue", "api"]),
   ("architecture",
    ["architecture", "c4", "microservices", "event", "cqrs", "saga", "domain", "ddd", "patterns",
     "decision", "adr"]),
   ("testing", ["testing", "tdd", "unit", "e2e", "qa", "test"]),
   ("business",
    ["business", "market", "sales", "finance", "startup", "legal", "hr", "product", "customer", "seo",
     "marketing", "kpi", "contract", "employment"]),
   ("workflow", ["workflow", "orchestration", "conductor", "automation", "process", "collaboration"])]

/-- Embedding of `categorizeSkill(skill)`: first keyword rule with a hit in
the tokenized haystack wins, default "general". -/
def categorizeSkill (skill : Skill) : String :=
  let haystack := (tokenize (skill.id ++ " " ++ orEmpty skill.name ++ " "
    ++ orEmpty skill.description ++ " " ++ (String.intercalate " " (skill.tags.getD [])))).dedup
  let firstHit := CATEGORY_RULES.find? (fun rule => rule.2.any (fun kw => haystack.contains kw))
  match firstHit with
  | some rule => rule.1
  | none => "general"

/-! ## skill-ranker.js — rankSkill and rankAll -/

/-- The breakdown sub-object of a ranked record; `uniqueness` is none when the
JS code stored `undefined` there (bare-number return of scoreUniqueness). -/
structure Breakdown where
  completeness : ℕ
  uniqueness : Option ℕ
  quality : ℕ
  repoSignals : ℕ
deriving DecidableEq

/-- A RankedSkillRecord. `score` is none when the JS total is NaN
(completeness + undefined + ...); `isDuplicate`/`duplicateOf` are outer-none
when the JS fields are undefined. -/
structure Ranked where
  id : String
  name : Option String
  description : Option String
  category : String
  tags : List String
  source : Option Source
  score : Option ℕ
  tier : String
  isDuplicate : Option Bool
  duplicateOf : Option (Option String)
  breakdown : Breakdown
deriving DecidableEq

/-- Embedding of `rankSkill(skill, existingSkills)` from skill-ranker.js. -/
def rankSkill (now : ℚ) (skill : Skill) (existingSkills : List ExistingSkill) : Ranked :=
  let completeness := scoreCompleteness skill
  let uniquenessResult := scoreUniqueness skill existingSkills
  let quality := scoreQuality skill
  let repoSignals := scoreRepoSignals now skill
  let totalScore : Option ℕ :=
    match uniquenessResult.scoreField with
    | none => none
    | some u => some (completeness + u + quality + repoSignals)
  let tier :=
    match totalScore with
    | none => "⬡"
    | some n => assignTier (n : ℚ)
  { id := skill.id
    name := skill.name
    description := skill.description
    category := categorizeSkill skill
    tags := skill.tags.getD []
    source := skill.source
    score := totalScore
    tier := tier
    isDuplicate := uniquenessResult.isDupField
    duplicateOf := uniquenessResult.dupOfField
    breakdown := ⟨completeness, uniquenessResult.scoreField, quality, repoSignals⟩ }

/-- Lexicographic code-point comparison of character lists — the embedding of
the nonpositive outcome of `a.localeCompare(b)` on the ASCII identifiers the
ranker sorts. -/
def charListLE : List Char → List Char → Bool
  | [], _ => true
  | _ :: _, [] => false
  | a :: as, b :: bs =>
    if a.toNat = b.toNat then charListLE as bs else decide (a.toNat < b.toNat)

/-- String embedding of `a.localeCompare(b) <= 0`. -/
def strLE (a b : String) : Bool := charListLE a.data b.data

/-- Order relation of the rankAll comparator
`(a, b) => b.score - a.score || a.id.localeCompare(b.id)`: a sorts no later
than b iff a has strictly greater score, or the score subtraction is zero or
NaN and the id comparison is nonpositive. -/
def rankLE (a b : Ranked) : Bool :=
  match a.score, b.score with
  | some x, some y => if x = y then strLE a.id b.id else decide (y < x)
  | _, _ => strLE a.id b.id

/-- Insert an element into a list sorted by the comparator order. -/
def insertRanked (a : Ranked) : List Ranked → List Ranked
  | [] => [a]
  | b :: l => if rankLE a b then a :: b :: l else b :: insertRanked a l

/-- The comparator sort of rankAll, embedded as insertion sort (any
comparator-consistent sort realises the JS Array.prototype.sort contract). -/
def sortRanked : List Ranked → List Ranked
  | [] => []
  | a :: l => insertRanked a (sortRanked l)

/-- Embedding of `rankAll(discoveredSkills, existingSkills)` from skill-ranker.js. -/
def rankAll (now : ℚ) (discoveredSkills : List Skill) (existingSkills : List ExistingSkill) :
    List Ranked :=
  sortRanked (discoveredSkills.map (fun skill => rankSkill now skill existingSkills))

/-! ## repo-catalog.js — the repository catalog store

JS `||` defaulting collapses absent and zero/empty values, so numeric Info
fields are ℕ with 0 as the falsy case and string fields are String with ""
as the falsy case. The impure `new Date().toISOString()` is the explicit
`now` parameter. -/

/-- One element of an entry's rolling `checks` history. -/
structure CheckEvent where
  timestamp : String
  skillCount : ℕ
  status : String
deriving DecidableEq

/-- A RepositoryCatalogEntry. -/
structure Entry where
  firstSeen : String
  lastChecked : String
  checks : List CheckEvent
  stars : ℕ
  forks : ℕ
  description : String
  url : String
  skillCount : ℕ
  skillIds : List String
  status : String
deriving DecidableEq

/-- The `info` argument of logRepoCheck. -/
structure Info where
  stars : ℕ
  forks : ℕ
  description : String
  skillCount : ℕ
  skillIds : List String
  status : String
deriving DecidableEq

/-- The persisted catalog: insertion-ordered repos object plus lastUpdated. -/
structure RepoCatalog where
  repos : List (String × Entry)
  lastUpdated : Option String
deriving DecidableEq

/-- Property lookup on the insertion-ordered repos object. -/
def reposGet : List (String × Entry) → String → Option Entry
  | [], _ => none
  | (k, e) :: rest, key => if k = key then some e else reposGet rest key

/-- Property assignment on the repos object: overwrite in place if the key
exists, otherwise append in insertion order. -/
def reposSet : List (String × Entry) → String → Entry → List (String × Entry)
  | [], key, e => [(key, e)]
  | (k, e0) :: rest, key, e =>
    if k = key then (key, e) :: rest else (k, e0) :: reposSet rest key e

/-- JS `x || d` for a numeric field (0 is falsy). -/
def jsOrNat (x d : ℕ) : ℕ := if x = 0 then d else x

/-- JS `x || d` for a string field ("" is falsy). -/
def jsOrStr (x d : String) : String := if x = "" then d else x

/-- Push the new check event and apply the keep-last-20 trim
(`if checks.length > 20 then checks.slice(-20)`). -/
def pushCheck (now : String) (info : Info) (entry : Entry) : Entry :=
  let checks := entry.checks ++ [⟨now, info.skillCount, jsOrStr info.status "checked"⟩]
  { entry with checks := if 20 < checks.length then checks.drop (checks.length - 20) else checks }

/-- Embedding of `logRepoCheck(catalog, repoName, info)` from repo-catalog.js
(the spec's recordVisit). -/
def logRepoCheck (now : String) (catalog : RepoCatalog) (repoName : String) (info : Info) :
    RepoCatalog :=
  match reposGet catalog.repos repoName with
  | none =>
    let entry : Entry :=
      { firstSeen := now, lastChecked := now, checks := [],
        stars := info.stars, forks := info.forks, description := info.description,
        url := "https://github.com/" ++ repoName,
        skillCount := info.skillCount, skillIds := info.skillIds,
        status := jsOrStr info.status "checked" }
    { catalog with repos := reposSet catalog.repos repoName (pushCheck now info entry) }
  | some entry =>
    let entry :=
      { entry with
        lastChecked := now,
        stars := jsOrNat info.stars entry.stars,
        forks := jsOrNat info.forks entry.forks,
        description := jsOrStr info.description entry.description,
        skillCount := jsOrNat info.skillCount entry.skillCount,
        skillIds := if info.skillIds.isEmpty then entry.skillIds else info.skillIds,
        status := jsOrStr info.status "checked" }
    { catalog with repos := reposSet catalog.repos repoName (pushCheck now info entry) }

/-- The stats record computed by getCatalogStats. -/
structure CatalogStats where
  totalRepos : ℕ
  reposWithSkills : ℕ
  emptyRepos : ℕ
  totalSkills : ℕ
  oldestCheck : Option String
  newestCheck : Option String
  lastUpdated : Option String
deriving DecidableEq

/-- Embedding of `getCatalogStats(catalog)` from repo-catalog.js. -/
def getCatalogStats (catalog : RepoCatalog) : CatalogStats :=
  let repos := catalog.repos
  let total := repos.length
  let totalSkills := repos.foldl (fun sum p => sum + p.2.skillCount) 0
  let withSkills := (repos.filter (fun p => 0 < p.2.skillCount)).length
  let empty := (repos.filter (fun p => p.2.skillCount = 0)).length
  let oldest := repos.foldl
    (fun acc p =>
      match acc with
      | none => some p.2.lastChecked
      | some o => if p.2.lastChecked < o then some p.2.lastChecked else acc) none
  let newest := repos.foldl
    (fun acc p =>
      match acc with
      | none => some p.2.lastChecked
      | some o => if o < p.2.lastChecked then some p.2.lastChecked else acc) none
  ⟨total, withSkills, empty, totalSkills, oldest, newest, catalog.lastUpdated⟩

/-! ## github-scanner.js — rateLimitedGet and searchRepos

The HTTP layer is modelled by a response oracle mapping the attempt number
to the response that `httpsGet` resolves with; sleeps do not affect the
computed value.  A thrown JS Error is an explicit outcome constructor. -/

/-- The value `httpsGet` resolves with (headers already parsed). -/
structure HttpResult where
  statusCode : ℕ
  body : String
  rateLimitRemaining : ℤ
  rateLimitReset : ℕ
deriving DecidableEq

/-- Outcome of rateLimitedGet: a resolved result, the thrown rate-limit
error, or the JS undefined that falling off the retry loop would produce
(unreachable for the fuel the wrapper supplies). -/
inductive GetOutcome where
  | ok (r : HttpResult)
  | rateLimitError
  | exhausted
deriving DecidableEq

/-- The retry loop body of rateLimitedGet, structurally recursive on the
remaining attempts (`fuel = retries + 1 - attempt`). -/
def rlgLoop (responses : ℕ → HttpResult) (retries : ℕ) : ℕ → ℕ → GetOutcome
  | _, 0 => .exhausted
  | attempt, fuel + 1 =>
    let result := responses attempt
    if result.statusCode = 403 ∧ result.rateLimitRemaining = 0 then
      if attempt < retries then rlgLoop responses retries (attempt + 1) fuel
      else .rateLimitError
    else if result.statusCode = 422 then
      .ok ⟨422, "\x7b\"items\":[]\x7d", result.rateLimitRemaining, 0⟩
    else if 500 ≤ result.statusCode ∧ attempt < retries then
      rlgLoop responses retries (attempt + 1) fuel
    else .ok result

/-- Embedding of `rateLimitedGet(url, headers, retries = 2)`. -/
def rateLimitedGet (responses : ℕ → HttpResult) (retries : ℕ := 2) : GetOutcome :=
  rlgLoop responses retries 0 (retries + 1)

/-- One mapped item of a repository-search response. -/
structure RepoItem where
  repo : String
  repoUrl : String
  stars : ℕ
  forks : ℕ
  pushedAt : Option String
  description : String
  defaultBranch : String
deriving DecidableEq

/-- Observable outcome of searchRepos: a resolved result list, the thrown
API-status Error (its message embeds the status code), a JSON parse failure
on a 200 body, or a propagated client-level outcome. -/
inductive SearchOutcome where
  | ok (totalCount : ℕ) (items : List RepoItem)
  | apiError (statusCode : ℕ)
  | bodyParseError
  | rateLimitError
  | exhausted
deriving DecidableEq

/-- Embedding of `searchRepos(query, page, perPage)`: the URL construction is
irrelevant to the observable outcome; `decode` stands for the external
JSON.parse-and-map step applied to a 200 body. -/
def searchRepos (decode : String → Option (ℕ × List RepoItem))
    (responses : ℕ → HttpResult) : SearchOutcome :=
  match rateLimitedGet responses 2 with
  | .rateLimitError => .rateLimitError
  | .exhausted => .exhausted
  | .ok result =>
    if result.statusCode ≠ 200 then .apiError result.statusCode
    else
      match decode result.body with
      | none => .bodyParseError
      | some (totalCount, items) => .ok totalCount items

/-! ## scripts/consolidate.js — the inventory builder

The filesystem and network effects are explicit: the loaded existing
catalog, the crawl result and the loaded repo catalog are inputs; the two
artifact writes and the catalog-stats report are recorded in the result. -/

/-- Options accepted by consolidate (after CLI parsing), with the JS `||`
defaulting applied inside the function. -/
structure ConsolidateOptions where
  query : Option String
  limit : Option ℕ
  minScore : Option ℕ
  durationMs : Option ℕ
deriving DecidableEq

/-- JS `opt || d` on an optional numeric option (absent or 0 gives the default). -/
def jsOrOptNat (x : Option ℕ) (d : ℕ) : ℕ :=
  match x with
  | none => d
  | some n => if n = 0 then d else n

/-- The Inventory run artifact. -/
structure Inventory where
  scannedAt : String
  query : String
  reposScanned : ℕ
  totalDiscovered : ℕ
  duration : String
  skills : List Ranked
deriving DecidableEq

/-- The artifact writes consolidate performs (discovered-skills.json and
DISCOVERED.md, both derived from the inventory; the external serializers are
not part of the decision being verified). -/
inductive Artifact where
  | inventoryJson (inv : Inventory)
  | discoveredMd (inv : Inventory)
deriving DecidableEq

/-- Observable result of a consolidate run: the returned value, the artifact
writes performed, and the catalog-wide stats reported at the end of either
branch. -/
structure ConsolidateResult where
  inventory : Option Inventory
  writes : List Artifact
  statsReported : CatalogStats
deriving DecidableEq

/-- The JS minimum-score filter predicate `s.score >= minScore`
(false on a NaN score). -/
def scoreAtLeast (score : Option ℕ) (minScore : ℕ) : Bool :=
  match score with
  | none => false
  | some n => minScore ≤ n

/-- Display label for the configured duration (approximating toFixed(1)). -/
def durationLabel (durationMs : ℕ) : String :=
  if durationMs = 0 then "single pass"
  else toString (durationMs / 3600000) ++ "." ++ toString (durationMs % 3600000 * 10 / 3600000)
    ++ " hour(s)"

/-- Embedding of `consolidate(options)` from scripts/consolidate.js:
`existingSkills` is what loadExistingCatalog returned, `reposScanned` and
`discovered` are what discoverSkills resolved with, `repoCatalog` is the
loaded repo catalog, and `nowMs`/`nowIso` are the clock readings. -/
def consolidate (options : ConsolidateOptions) (existingSkills : List ExistingSkill)
    (reposScanned : ℕ) (discovered : List Skill) (repoCatalog : RepoCatalog)
    (nowMs : ℚ) (nowIso : String) : ConsolidateResult :=
  let query :=
    match options.query with
    | none => "filename:SKILL.md path:skills"
    | some q => jsOrStr q "filename:SKILL.md path:skills"
  let minScore := jsOrOptNat options.minScore 0
  let durationMs := jsOrOptNat options.durationMs 0
  if discovered.isEmpty then
    { inventory := none, writes := [], statsReported := getCatalogStats repoCatalog }
  else
    let ranked := rankAll nowMs discovered existingSkills
    let ranked := if 0 < minScore then ranked.filter (fun s => scoreAtLeast s.score minScore)
      else ranked
    let inventory : Inventory :=
      { scannedAt := nowIso, query := query, reposScanned := reposScanned,
        totalDiscovered := ranked.length, duration := durationLabel durationMs,
        skills := ranked }
    { inventory := some inventory,
      writes := [.inventoryJson inventory, .discoveredMd inventory],
      statsReported := getCatalogStats repoCatalog }

/-! ## Helper lemmas -/

lemma dedup_toFinset (l : List String) : l.dedup.toFinset = l.toFinset := by
  ext a; simp

lemma length_filter_contains (l m : List String) (hl : l.Nodup) :
    (l.filter (fun t => m.contains t)).length = (l.toFinset ∩ m.toFinset).card := by
  rw [← List.toFinset_card_of_nodup (hl.filter _)]
  congr 1
  rw [List.toFinset_filter]
  rw [← Finset.filter_mem_eq_inter]
  apply Finset.filter_congr
  intro a _
  simp [List.elem_iff]

/-! ## Claim theorems -/

/-- Concrete discovered skill used to exhibit the empty-catalog ranking slip. -/
def sampleSkill : Skill :=
  { id := "alpha", name := some "Alpha Tool", description := some "does things",
    tags := some ["x"], content := some "body", source := none, parseErrors := some [] }

/-- C1: the claim says every record produced by rankSkill — for any
existing-skills list including the empty one — has score equal to the sum of
the four breakdown sub-scores, each in [0,25], with the total in [0,100].
The code violates this in the empty-list case: scoreUniqueness early-returns
the bare number 25, rankSkill reads the absent `.score` property off it, the
breakdown records undefined for uniqueness and the total becomes NaN.  This
theorem evaluates the embedded code at such a failing input. -/
theorem rankSkill_empty_existing_violates_invariant :
    (rankSkill 0 sampleSkill []).score = none
    ∧ (rankSkill 0 sampleSkill []).breakdown.uniqueness = none
    ∧ (rankSkill 0 sampleSkill []).isDuplicate = none
    ∧ (rankSkill 0 sampleSkill []).duplicateOf = none
    ∧ scoreUniqueness sampleSkill [] = .plain 25 := by
  refine ⟨rfl, rfl, rfl, rfl, rfl⟩

/-- The scenario document of the completeness/uniqueness claim: name "Foo",
a 30-character description, the literal body text quoted by the spec, one tag. -/
def scenarioSkill : Skill :=
  { id := "foo", name := some "Foo",
    description := some "AAAAAAAAAAAAAAAAAAAAAAAAAAAAAA",
    tags := some ["x"],
    content := some "## Use When\n...\n## Instructions\n...\n```js\ncode\n```",
    source := none, parseErrors := none }

/-- C2 counterexample: the claimed completeness lower bound 22 fails on the
scenario document — its body is only 50 characters long, so the +3
body-length credit the spec counted never fires, and completeness is 19. -/
theorem scenario_completeness_counterexample :
    scoreCompleteness scenarioSkill = 19 ∧ ¬ (22 ≤ scoreCompleteness scenarioSkill) := by
  refine ⟨rfl, by decide⟩

/-- C2 amended: ranking the scenario document (with an id distinct from its
name) yields a completeness sub-score of exactly 19 = 5+5+4+3+2 (name,
description, use-when, instructions, tags; no body-length credit for the
50-character body), and scoreUniqueness against the empty catalog returns
the bare value 25. -/
theorem scenario_completeness_amended :
    scoreCompleteness scenarioSkill = 19
    ∧ scoreUniqueness scenarioSkill [] = .plain 25 := by
  refine ⟨rfl, rfl⟩

/-- C3: the claim says a 422 search response yields zero items as a success
without raising.  In the code, rateLimitedGet does synthesize a success-shaped
result with an empty-items body on 422 — but it keeps statusCode 422, so the
`!== 200` check in searchRepos throws the API error anyway; the crawl
survives only because the phase-2 loop catches per-query errors.  This
theorem evaluates both stages at a constant-422 response oracle. -/
theorem searchRepos_422_still_raises :
    rateLimitedGet (fun _ => ⟨422, "", 30, 0⟩) 2 = .ok ⟨422, "\x7b\"items\":[]\x7d", 30, 0⟩
    ∧ (∀ decode : String → Option (ℕ × List RepoItem),
        searchRepos decode (fun _ => ⟨422, "", 30, 0⟩) = .apiError 422) := by
  refine ⟨rfl, fun decode => rfl⟩

/-- C5: tier assignment is the fixed step function of the total score the
claim describes, including all seven enumerated sample points. -/
theorem assignTier_step_function (s : ℕ) :
    (75 ≤ s → assignTier s = "★★★")
    ∧ (50 ≤ s → s ≤ 74 → assignTier s = "★★")
    ∧ (25 ≤ s → s ≤ 49 → assignTier s = "★")
    ∧ (s ≤ 24 → assignTier s = "⬡")
    ∧ assignTier 75 = "★★★" ∧ assignTier 74 = "★★" ∧ assignTier 50 = "★★"
    ∧ assignTier 49 = "★" ∧ assignTier 25 = "★" ∧ assignTier 24 = "⬡"
    ∧ assignTier 0 = "⬡" := by
  refine ⟨fun h => ?_, fun h1 h2 => ?_, fun h1 h2 => ?_, fun h => ?_,
    by norm_num [assignTier], by norm_num [assignTier], by norm_num [assignTier],
    by norm_num [assignTier], by norm_num [assignTier], by norm_num [assignTier],
    by norm_num [assignTier]⟩
  · have hq : (75 : ℚ) ≤ (s : ℚ) := by exact_mod_cast h
    simp [assignTier, hq]
  · have hq1 : (50 : ℚ) ≤ (s : ℚ) := by exact_mod_cast h1
    have hq2 : ¬ (75 : ℚ) ≤ (s : ℚ) := by
      rw [not_le]
      exact_mod_cast Nat.lt_of_le_of_lt h2 (by norm_num)
    simp [assignTier, hq1, hq2]
  · have hq1 : (25 : ℚ) ≤ (s : ℚ) := by exact_mod_cast h1
    have hq2 : ¬ (75 : ℚ) ≤ (s : ℚ) := by
      rw [not_le]; exact_mod_cast Nat.lt_of_le_of_lt h2 (by norm_num)
    have hq3 : ¬ (50 : ℚ) ≤ (s : ℚ) := by
      rw [not_le]; exact_mod_cast Nat.lt_of_le_of_lt h2 (by norm_num)
    simp [assignTier, hq1, hq2, hq3]
  · have hq2 : ¬ (75 : ℚ) ≤ (s : ℚ) := by
      rw [not_le]; exact_mod_cast Nat.lt_of_le_of_lt h (by norm_num)
    have hq3 : ¬ (50 : ℚ) ≤ (s : ℚ) := by
      rw [not_le]; exact_mod_cast Nat.lt_of_le_of_lt h (by norm_num)
    have hq4 : ¬ (25 : ℚ) ≤ (s : ℚ) := by
      rw [not_le]; exact_mod_cast Nat.lt_of_le_of_lt h (by norm_num)
    simp [assignTier, hq2, hq3, hq4]

/-- C5 witness: the step function evaluated in the ★★ band. -/
theorem assignTier_step_function_witness : assignTier ((60 : ℕ) : ℚ) = "★★" :=
  (assignTier_step_function 60).2.1 (by norm_num) (by norm_num)

/-- C8: Jaccard similarity is symmetric, reflexive-to-1 on nonempty token
lists, and 0 when the first token list is empty. -/
theorem jaccard_symm_self_empty :
    (∀ A B : List String, jaccardSimilarity A B = jaccardSimilarity B A)
    ∧ (∀ A : List String, A ≠ [] → jaccardSimilarity A A = 1)
    ∧ (∀ B : List String, jaccardSimilarity [] B = 0) := by
  refine ⟨?_, ?_, fun B => rfl⟩
  · intro A B
    unfold jaccardSimilarity
    by_cases hA : A.isEmpty <;> by_cases hB : B.isEmpty <;> simp only [hA, hB,
      Bool.true_or, Bool.or_true, Bool.false_or, Bool.or_false, if_true, if_false]
    have hi : ((A.dedup).filter (fun t => (B.dedup).contains t)).length
        = ((B.dedup).filter (fun t => (A.dedup).contains t)).length := by
      rw [length_filter_contains _ _ (List.nodup_dedup A),
        length_filter_contains _ _ (List.nodup_dedup B),
        dedup_toFinset, dedup_toFinset, Finset.inter_comm]
    rw [hi, Nat.add_comm]
  · intro A hA
    unfold jaccardSimilarity
    have hne : A.isEmpty = false := by
      cases A with
      | nil => exact absurd rfl hA
      | cons a l => rfl
    rw [hne]
    simp only [Bool.or_self, if_false, Bool.false_eq_true]
    have hfull : (A.dedup).filter (fun t => (A.dedup).contains t) = A.dedup := by
      apply List.filter_eq_self.2
      intro a ha
      simpa [List.elem_iff] using ha
    rw [hfull]
    have hlen : A.dedup.length ≠ 0 := by
      intro h0
      exact hA ((List.dedup_eq_nil A).1 (List.length_eq_zero.1 h0))
    have hsub : A.dedup.length + A.dedup.length - A.dedup.length = A.dedup.length := by
      omega
    rw [hsub, if_neg hlen]
    exact div_self (by exact_mod_cast hlen)

/-- C8 witness: the three properties at concrete token lists. -/
theorem jaccard_symm_self_empty_witness :
    jaccardSimilarity ["a"] ["b"] = jaccardSimilarity ["b"] ["a"]
    ∧ jaccardSimilarity ["a"] ["a"] = 1
    ∧ jaccardSimilarity [] ["b"] = 0 :=
  ⟨jaccard_symm_self_empty.1 ["a"] ["b"],
   jaccard_symm_self_empty.2.1 ["a"] (by decide),
   jaccard_symm_self_empty.2.2 ["b"]⟩

lemma uniqLoop_collision (skill : Skill) :
    ∀ (l : List ExistingSkill) (m : ℚ) (b : Option String),
      (∃ e ∈ l, e.id = skill.id) →
      uniqLoop skill l m b = .obj ⟨0, some skill.id, true⟩ := by
  intro l
  induction l with
  | nil => intro m b h; simp at h
  | cons e rest ih =>
    intro m b h
    by_cases he : e.id = skill.id
    · simp [uniqLoop, he]
    · have hrest : ∃ x ∈ rest, x.id = skill.id := by
        rcases h with ⟨x, hx, hxid⟩
        rcases List.mem_cons.1 hx with rfl | hx2
        · exact absurd hxid he
        · exact ⟨x, hx2, hxid⟩
      rw [uniqLoop, if_neg he]
      by_cases hs : m < simOf skill e
      · simp only [hs, if_true]; exact ih _ _ hrest
      · simp only [hs, if_false]; exact ih _ _ hrest

/-- C4: an exact id collision between the discovered skill and any existing
entry forces uniqueness score 0, isDuplicate = true, and duplicateOf equal to
that (colliding) id, regardless of text similarity. -/
theorem scoreUniqueness_id_collision (skill : Skill) (existing : List ExistingSkill)
    (h : ∃ e ∈ existing, e.id = skill.id) :
    scoreUniqueness skill existing = .obj ⟨0, some skill.id, true⟩ := by
  cases existing with
  | nil => simp at h
  | cons e rest => exact uniqLoop_collision skill (e :: rest) 0 none h

/-- C4 witness: a collision on id "alpha" with entirely different text. -/
theorem scoreUniqueness_id_collision_witness :
    scoreUniqueness sampleSkill
        [⟨"zeta", some "unrelated", some "totally different words"⟩,
         ⟨"alpha", some "other name", some "other text"⟩]
      = .obj ⟨0, some sampleSkill.id, true⟩ :=
  scoreUniqueness_id_collision sampleSkill _ (by decide)

/-- Statement helper: the scan state of the scoreUniqueness loop — strict
maximum similarity and the first entry achieving it. -/
def scanBest (skill : Skill) : List ExistingSkill → ℚ × Option String → ℚ × Option String
  | [], mb => mb
  | e :: rest, (m, b) =>
    let s := simOf skill e
    if m < s then scanBest skill rest (s, some e.id) else scanBest skill rest (m, b)

/-- Statement helper: the maximum Jaccard similarity of a discovered skill
against the existing entries (fold with the loop's strict-improvement update,
which computes the maximum of the similarities and 0). -/
def maxSimOf (skill : Skill) (existing : List ExistingSkill) : ℚ :=
  (existing.map (simOf skill)).foldl (fun m s => if m < s then s else m) 0

/-- Statement helper: the id of the best-matching existing entry tracked by
the scoreUniqueness loop. -/
def bestMatchOf (skill : Skill) (existing : List ExistingSkill) : Option String :=
  (scanBest skill existing (0, none)).2

lemma uniqLoop_eq_scanBest (skill : Skill) :
    ∀ (l : List ExistingSkill) (m : ℚ) (b : Option String),
      (∀ e ∈ l, e.id ≠ skill.id) →
      uniqLoop skill l m b =
        (if 7/10 < (scanBest skill l (m, b)).1 then .obj ⟨3, (scanBest skill l (m, b)).2, true⟩
         else if 1/2 < (scanBest skill l (m, b)).1 then .obj ⟨10, (scanBest skill l (m, b)).2, false⟩
         else if 3/10 < (scanBest skill l (m, b)).1 then .obj ⟨18, none, false⟩
         else .obj ⟨25, none, false⟩) := by
  intro l
  induction l with
  | nil => intro m b _; rfl
  | cons e rest ih =>
    intro m b h
    have he : e.id ≠ skill.id := h e (List.mem_cons_self e rest)
    have hrest : ∀ x ∈ rest, x.id ≠ skill.id := fun x hx => h x (List.mem_cons_of_mem e hx)
    rw [uniqLoop, if_neg he]
    show (if m < simOf skill e then uniqLoop skill rest (simOf skill e) (some e.id)
      else uniqLoop skill rest m b) = _
    by_cases hs : m < simOf skill e
    · rw [if_pos hs, ih _ _ hrest]
      have hsc : scanBest skill (e :: rest) (m, b)
          = scanBest skill rest (simOf skill e, some e.id) := by
        show (if m < simOf skill e then _ else _) = _
        rw [if_pos hs]
      rw [hsc]
    · rw [if_neg hs, ih _ _ hrest]
      have hsc : scanBest skill (e :: rest) (m, b) = scanBest skill rest (m, b) := by
        show (if m < simOf skill e then _ else _) = _
        rw [if_neg hs]
      rw [hsc]

lemma scanBest_fst (skill : Skill) :
    ∀ (l : List ExistingSkill) (m : ℚ) (b : Option String),
      (scanBest skill l (m, b)).1
        = (l.map (simOf skill)).foldl (fun m s => if m < s then s else m) m := by
  intro l
  induction l with
  | nil => intro m b; rfl
  | cons e rest ih =>
    intro m b
    show (if m < simOf skill e then scanBest skill rest (simOf skill e, some e.id)
      else scanBest skill rest (m, b)).1 = _
    simp only [List.map_cons, List.foldl_cons]
    by_cases hs : m < simOf skill e
    · rw [if_pos hs, ih, if_pos hs]
    · rw [if_neg hs, ih, if_neg hs]

lemma scanBest_snd_none (skill : Skill) :
    ∀ (l : List ExistingSkill) (m : ℚ) (b : Option String),
      (scanBest skill l (m, b)).2 = none → b = none ∧ (scanBest skill l (m, b)).1 = m := by
  intro l
  induction l with
  | nil => intro m b h; exact ⟨h, rfl⟩
  | cons e rest ih =>
    intro m b h
    by_cases hs : m < simOf skill e
    · exfalso
      have hstep : scanBest skill (e :: rest) (m, b)
          = scanBest skill rest (simOf skill e, some e.id) := by
        show (if m < simOf skill e then _ else _) = _
        rw [if_pos hs]
      rw [hstep] at h
      exact Option.noConfusion ((ih _ _ h).1)
    · have hstep : scanBest skill (e :: rest) (m, b) = scanBest skill rest (m, b) := by
        show (if m < simOf skill e then _ else _) = _
        rw [if_neg hs]
      rw [hstep] at h ⊢
      exact ih _ _ h

/-- C10: with no exact id collision and the maximum similarity strictly
between 0.5 and 0.7 (inclusive above), scoreUniqueness returns score 10 with
isDuplicate = false but duplicateOf pointing at the best-matching existing
entry — a non-null reference on a record not flagged as a duplicate. -/
theorem scoreUniqueness_midband_dupOf (skill : Skill) (existing : List ExistingSkill)
    (hne : existing ≠ []) (hid : ∀ e ∈ existing, e.id ≠ skill.id)
    (hlo : 1/2 < maxSimOf skill existing) (hhi : maxSimOf skill existing ≤ 7/10) :
    scoreUniqueness skill existing = .obj ⟨10, bestMatchOf skill existing, false⟩
    ∧ bestMatchOf skill existing ≠ none := by
  have hmax : (scanBest skill existing (0, none)).1 = maxSimOf skill existing :=
    scanBest_fst skill existing 0 none
  have hbn : bestMatchOf skill existing ≠ none := by
    intro hn
    rcases scanBest_snd_none skill existing 0 none hn with ⟨_, h1⟩
    rw [hmax] at h1
    rw [h1] at hlo
    norm_num at hlo
  refine ⟨?_, hbn⟩
  cases existing with
  | nil => exact absurd rfl hne
  | cons e rest =>
    show uniqLoop skill (e :: rest) 0 none = _
    rw [uniqLoop_eq_scanBest skill (e :: rest) 0 none hid]
    rw [hmax, if_neg (not_lt.2 hhi), if_pos hlo]
    rfl

/-- Skill used in the mid-band witness: tokens a b c d. -/
def midbandSkill : Skill :=
  { id := "w1", name := some "a b c", description := some "d",
    tags := none, content := none, source := none, parseErrors := none }

/-- Existing entry used in the mid-band witness: tokens a b c e, similarity 3/5. -/
def midbandExisting : ExistingSkill := ⟨"e1", some "a b c", some "e"⟩

/-- C10 witness: a concrete skill/existing pair with similarity 3/5 ∈ (0.5, 0.7]. -/
theorem scoreUniqueness_midband_dupOf_witness :
    scoreUniqueness midbandSkill [midbandExisting]
      = .obj ⟨10, bestMatchOf midbandSkill [midbandExisting], false⟩
    ∧ bestMatchOf midbandSkill [midbandExisting] ≠ none := by
  have hsim : simOf midbandSkill midbandExisting = 3/5 := by
    show (((3 : ℕ) : ℚ) / ((5 : ℕ) : ℚ)) = 3/5
    norm_num
  have hmax : maxSimOf midbandSkill [midbandExisting] = 3/5 := by
    show (if (0 : ℚ) < simOf midbandSkill midbandExisting
      then simOf midbandSkill midbandExisting else 0) = 3/5
    rw [hsim]
    norm_num
  exact scoreUniqueness_midband_dupOf midbandSkill [midbandExisting] (by decide) (by decide)
    (by rw [hmax]; norm_num) (by rw [hmax]; norm_num)

/-! ## C7 — repository catalog invariants -/

/-- A recorded visit: timestamp, repository identifier, visit info. -/
def applyVisits (vs : List (String × String × Info)) (c : RepoCatalog) : RepoCatalog :=
  vs.foldl (fun cat v => logRepoCheck v.1 cat v.2.1 v.2.2) c

/-- Statement helper: the checks-history bound on an optional entry. -/
def checksLenOK : Option Entry → Bool
  | none => true
  | some e => e.checks.length ≤ 20

/-- Statement helper: every entry of the catalog satisfies the checks bound. -/
def catWF (c : RepoCatalog) : Bool :=
  c.repos.all (fun p => p.2.checks.length ≤ 20)

lemma pushCheck_len_le (now : String) (info : Info) (entry : Entry) :
    (pushCheck now info entry).checks.length ≤ 20 := by
  unfold pushCheck
  set checks := entry.checks ++ [⟨now, info.skillCount, jsOrStr info.status "checked"⟩] with hc
  by_cases h : 20 < checks.length
  · simp only [h, if_true]
    rw [List.length_drop]
    omega
  · simp only [h, if_false]
    omega

lemma reposGet_set_self (l : List (String × Entry)) (k : String) (e : Entry) :
    reposGet (reposSet l k e) k = some e := by
  induction l with
  | nil => simp [reposSet, reposGet]
  | cons p rest ih =>
    by_cases h : p.1 = k
    · simp [reposSet, reposGet, h]
    · cases p with
      | mk k0 e0 =>
        simp only [reposSet, reposGet]
        simp only at h
        rw [if_neg h, reposGet, if_neg h]
        exact ih

lemma reposGet_set_other (l : List (String × Entry)) (k key : String) (e : Entry)
    (h : k ≠ key) : reposGet (reposSet l k e) key = reposGet l key := by
  induction l with
  | nil => simp [reposSet, reposGet, h]
  | cons p rest ih =>
    cases p with
    | mk k0 e0 =>
      by_cases h0 : k0 = k
      · simp only [reposSet, h0, if_pos rfl, reposGet]
        rw [if_neg h, if_neg (h0 ▸ h)]
      · simp only [reposSet, if_neg h0, reposGet]
        by_cases h1 : k0 = key
        · rw [if_pos h1, if_pos h1]
        · rw [if_neg h1, if_neg h1]
          exact ih

lemma all_reposSet (l : List (String × Entry)) (k : String) (e : Entry)
    (p : String × Entry → Bool) (hl : l.all p = true) (he : p (k, e) = true) :
    (reposSet l k e).all p = true := by
  induction l with
  | nil => simpa [reposSet]
  | cons q rest ih =>
    cases q with
    | mk k0 e0 =>
      rw [List.all_cons, Bool.and_eq_true] at hl
      simp only [reposSet]
      by_cases h0 : k0 = k
      · rw [if_pos h0, List.all_cons, Bool.and_eq_true]
        exact And.intro he hl.2
      · rw [if_neg h0, List.all_cons, Bool.and_eq_true]
        exact And.intro hl.1 (ih hl.2)

lemma catWF_logRepoCheck (now : String) (c : RepoCatalog) (r : String) (i : Info)
    (h : catWF c = true) : catWF (logRepoCheck now c r i) = true := by
  unfold catWF at h ⊢
  unfold logRepoCheck
  cases hg : reposGet c.repos r with
  | none =>
    simp only
    exact all_reposSet _ _ _ _ h (by simpa using pushCheck_len_le now i _)
  | some entry =>
    simp only
    exact all_reposSet _ _ _ _ h (by simpa using pushCheck_len_le now i _)

lemma reposGet_of_all (l : List (String × Entry)) (k : String) (e : Entry)
    (p : String × Entry → Bool) (hl : l.all p = true) (hg : reposGet l k = some e) :
    p (k, e) = true := by
  induction l with
  | nil => simp [reposGet] at hg
  | cons q rest ih =>
    cases q with
    | mk k0 e0 =>
      rw [List.all_cons, Bool.and_eq_true] at hl
      rw [reposGet] at hg
      by_cases h0 : k0 = k
      · rw [if_pos h0] at hg
        cases hg
        exact h0 ▸ hl.1
      · rw [if_neg h0] at hg
        exact ih hl.2 hg

lemma firstSeen_logRepoCheck (now : String) (c : RepoCatalog) (r k : String) (i : Info)
    (e : Entry) (hg : reposGet c.repos k = some e) :
    (reposGet (logRepoCheck now c r i).repos k).map Entry.firstSeen = some e.firstSeen := by
  unfold logRepoCheck
  by_cases hrk : r = k
  · subst hrk
    rw [hg]
    simp only
    rw [reposGet_set_self]
    rfl
  · cases hgr : reposGet c.repos r with
    | none =>
      simp only
      rw [reposGet_set_other _ _ _ _ hrk, hg]
      rfl
    | some entry =>
      simp only
      rw [reposGet_set_other _ _ _ _ hrk, hg]
      rfl

lemma catWF_applyVisits (vs : List (String × String × Info)) :
    ∀ c : RepoCatalog, catWF c = true → catWF (applyVisits vs c) = true := by
  induction vs with
  | nil => intro c h; exact h
  | cons v rest ih =>
    intro c h
    exact ih _ (catWF_logRepoCheck v.1 c v.2.1 v.2.2 h)

lemma firstSeen_applyVisits (vs : List (String × String × Info)) :
    ∀ (c : RepoCatalog) (k : String) (e : Entry), reposGet c.repos k = some e →
      (reposGet (applyVisits vs c).repos k).map Entry.firstSeen = some e.firstSeen := by
  induction vs with
  | nil =>
    intro c k e hg
    show (reposGet c.repos k).map Entry.firstSeen = some e.firstSeen
    rw [hg]
    rfl
  | cons v rest ih =>
    intro c k e hg
    have hstep := firstSeen_logRepoCheck v.1 c v.2.1 k v.2.2 e hg
    cases hg2 : reposGet (logRepoCheck v.1 c v.2.1 v.2.2).repos k with
    | none => rw [hg2] at hstep; simp at hstep
    | some e2 =>
      rw [hg2] at hstep
      have he2 : e2.firstSeen = e.firstSeen := Option.some.inj hstep
      show (reposGet (applyVisits rest (logRepoCheck v.1 c v.2.1 v.2.2)).repos k).map
        Entry.firstSeen = some e.firstSeen
      rw [ih _ k e2 hg2, he2]

/-- C7: starting from any catalog whose entries respect the 20-event bound,
after any sequence of recordVisit (logRepoCheck) calls every entry's checks
history still has length at most 20, and the firstSeen timestamp of an entry
present at any intermediate point is unchanged by all later visits. -/
theorem logRepoCheck_checks_bounded_firstSeen_stable
    (vs1 vs2 : List (String × String × Info)) (c : RepoCatalog) (k : String)
    (hwf : catWF c = true) :
    checksLenOK (reposGet (applyVisits (vs1 ++ vs2) c).repos k) = true
    ∧ (reposGet (applyVisits vs1 c).repos k ≠ none →
        (reposGet (applyVisits (vs1 ++ vs2) c).repos k).map Entry.firstSeen
          = (reposGet (applyVisits vs1 c).repos k).map Entry.firstSeen) := by
  have hsplit : applyVisits (vs1 ++ vs2) c = applyVisits vs2 (applyVisits vs1 c) := by
    unfold applyVisits
    exact List.foldl_append _ _ vs1 vs2
  constructor
  · have hwf2 : catWF (applyVisits (vs1 ++ vs2) c) = true := catWF_applyVisits _ c hwf
    cases hg : reposGet (applyVisits (vs1 ++ vs2) c).repos k with
    | none => rfl
    | some e =>
      show decide (e.checks.length ≤ 20) = true
      exact reposGet_of_all _ _ _ _ hwf2 hg
  · intro hne
    cases hg : reposGet (applyVisits vs1 c).repos k with
    | none => exact absurd hg hne
    | some e =>
      rw [hsplit, firstSeen_applyVisits vs2 _ k e hg]
      rfl

/-- C7 witness: two visits to the same repository after a creating visit. -/
theorem logRepoCheck_checks_bounded_firstSeen_stable_witness :
    checksLenOK (reposGet (applyVisits
        ([("t1", "o/r", ⟨1, 0, "", 2, ["s"], "has-skills"⟩)]
          ++ [("t2", "o/r", ⟨3, 1, "d", 0, [], ""⟩), ("t3", "o/r", ⟨0, 0, "", 0, [], ""⟩)])
        ⟨[], none⟩).repos "o/r") = true
    ∧ (reposGet (applyVisits
        ([("t2", "o/r", ⟨3, 1, "d", 0, [], ""⟩), ("t3", "o/r", ⟨0, 0, "", 0, [], ""⟩)] ++
          [("t1", "o/r", ⟨1, 0, "", 2, ["s"], "has-skills"⟩)]) ⟨[], none⟩).repos "o/r").map
        Entry.firstSeen
      = (reposGet (applyVisits [("t2", "o/r", ⟨3, 1, "d", 0, [], ""⟩),
          ("t3", "o/r", ⟨0, 0, "", 0, [], ""⟩)] ⟨[], none⟩).repos "o/r").map Entry.firstSeen :=
  ⟨(logRepoCheck_checks_bounded_firstSeen_stable
      [("t1", "o/r", ⟨1, 0, "", 2, ["s"], "has-skills"⟩)]
      [("t2", "o/r", ⟨3, 1, "d", 0, [], ""⟩), ("t3", "o/r", ⟨0, 0, "", 0, [], ""⟩)]
      ⟨[], none⟩ "o/r" (by decide)).1,
   (logRepoCheck_checks_bounded_firstSeen_stable
      [("t2", "o/r", ⟨3, 1, "d", 0, [], ""⟩), ("t3", "o/r", ⟨0, 0, "", 0, [], ""⟩)]
      [("t1", "o/r", ⟨1, 0, "", 2, ["s"], "has-skills"⟩)]
      ⟨[], none⟩ "o/r" (by decide)).2 (by decide)⟩

/-! ## C9 — consolidate: null on zero discoveries -/

/-- C9: consolidate returns null (none) exactly when the crawl discovered
zero documents — still reporting catalog-wide stats and writing no inventory
artifacts in that case — and returns a non-null inventory (with both artifact
writes) whenever anything was discovered, even if the minimum-score filter
subsequently empties the skills list. -/
theorem consolidate_null_iff_zero_discovered (options : ConsolidateOptions)
    (existingSkills : List ExistingSkill) (reposScanned : ℕ) (discovered : List Skill)
    (repoCatalog : RepoCatalog) (nowMs : ℚ) (nowIso : String) :
    (discovered = [] →
      (consolidate options existingSkills reposScanned discovered repoCatalog nowMs
        nowIso).inventory = none
      ∧ (consolidate options existingSkills reposScanned discovered repoCatalog nowMs
        nowIso).writes = []
      ∧ (consolidate options existingSkills reposScanned discovered repoCatalog nowMs
        nowIso).statsReported = getCatalogStats repoCatalog)
    ∧ (discovered ≠ [] →
      (consolidate options existingSkills reposScanned discovered repoCatalog nowMs
        nowIso).inventory.isSome = true
      ∧ (consolidate options existingSkills reposScanned discovered repoCatalog nowMs
        nowIso).writes ≠ []
      ∧ (consolidate options existingSkills reposScanned discovered repoCatalog nowMs
        nowIso).statsReported = getCatalogStats repoCatalog) := by
  constructor
  · intro h
    subst h
    exact ⟨rfl, rfl, rfl⟩
  · intro h
    cases discovered with
    | nil => exact absurd rfl h
    | cons s rest =>
      refine ⟨?_, ?_, ?_⟩ <;> simp [consolidate]

/-- C9 witness: the zero-discovery branch at a concrete configuration. -/
theorem consolidate_null_iff_zero_discovered_witness :
    (consolidate ⟨none, some 5, some 40, none⟩ [] 3 [] ⟨[], none⟩ 0 "t").inventory = none
    ∧ (consolidate ⟨none, some 5, some 40, none⟩ [] 3 [] ⟨[], none⟩ 0 "t").writes = []
    ∧ (consolidate ⟨none, some 5, some 40, none⟩ [] 3 [] ⟨[], none⟩ 0 "t").statsReported
      = getCatalogStats ⟨[], none⟩ :=
  (consolidate_null_iff_zero_discovered ⟨none, some 5, some 40, none⟩ [] 3 [] ⟨[], none⟩
    0 "t").1 rfl

/-! ## C6 — rankAll output ordering -/

lemma charListLE_total : ∀ as bs : List Char, charListLE as bs = true ∨ charListLE bs as = true := by
  intro as
  induction as with
  | nil => intro bs; exact Or.inl rfl
  | cons a as2 ih =>
    intro bs
    cases bs with
    | nil => exact Or.inr rfl
    | cons b bs2 =>
      by_cases hab : a.toNat = b.toNat
      · rcases ih bs2 with h | h
        · left
          show (if a.toNat = b.toNat then charListLE as2 bs2 else _) = true
          rw [if_pos hab]; exact h
        · right
          show (if b.toNat = a.toNat then charListLE bs2 as2 else _) = true
          rw [if_pos hab.symm]; exact h
      · show ((if a.toNat = b.toNat then charListLE as2 bs2 else decide (a.toNat < b.toNat)) = true)
          ∨ ((if b.toNat = a.toNat then charListLE bs2 as2 else decide (b.toNat < a.toNat)) = true)
        rw [if_neg hab, if_neg (Ne.symm hab)]
        simp only [decide_eq_true_eq]
        omega

lemma charListLE_trans : ∀ as bs cs : List Char,
    charListLE as bs = true → charListLE bs cs = true → charListLE as cs = true := by
  intro as
  induction as with
  | nil => intro bs cs _ _; rfl
  | cons a as2 ih =>
    intro bs cs h1 h2
    cases bs with
    | nil => exact absurd h1 (by simp [charListLE])
    | cons b bs2 =>
      cases cs with
      | nil => exact absurd h2 (by simp [charListLE])
      | cons c cs2 =>
        rw [show charListLE (a :: as2) (b :: bs2)
          = (if a.toNat = b.toNat then charListLE as2 bs2 else decide (a.toNat < b.toNat))
          from rfl] at h1
        rw [show charListLE (b :: bs2) (c :: cs2)
          = (if b.toNat = c.toNat then charListLE bs2 cs2 else decide (b.toNat < c.toNat))
          from rfl] at h2
        show (if a.toNat = c.toNat then charListLE as2 cs2 else decide (a.toNat < c.toNat)) = true
        by_cases hab : a.toNat = b.toNat <;> by_cases hbc : b.toNat = c.toNat
        · rw [if_pos (hab.trans hbc)]
          rw [if_pos hab] at h1
          rw [if_pos hbc] at h2
          exact ih bs2 cs2 h1 h2
        · rw [if_pos hab] at h1
          rw [if_neg hbc] at h2
          simp only [decide_eq_true_eq] at h2
          rw [if_neg (by omega)]
          simp only [decide_eq_true_eq]
          omega
        · rw [if_neg hab] at h1
          rw [if_pos hbc] at h2
          simp only [decide_eq_true_eq] at h1
          rw [if_neg (by omega)]
          simp only [decide_eq_true_eq]
          omega
        · rw [if_neg hab] at h1
          rw [if_neg hbc] at h2
          simp only [decide_eq_true_eq] at h1 h2
          rw [if_neg (by omega)]
          simp only [decide_eq_true_eq]
          omega

lemma strLE_total (a b : String) : strLE a b = true ∨ strLE b a = true :=
  charListLE_total a.data b.data

lemma strLE_trans (a b c : String) (h1 : strLE a b = true) (h2 : strLE b c = true) :
    strLE a c = true :=
  charListLE_trans a.data b.data c.data h1 h2

lemma rankLE_total (a b : Ranked) : rankLE a b = true ∨ rankLE b a = true := by
  unfold rankLE
  cases ha : a.score with
  | none =>
    cases hb : b.score with
    | none => exact strLE_total a.id b.id
    | some y => exact strLE_total a.id b.id
  | some x =>
    cases hb : b.score with
    | none => exact strLE_total a.id b.id
    | some y =>
      show ((if x = y then strLE a.id b.id else decide (y < x)) = true)
        ∨ ((if y = x then strLE b.id a.id else decide (x < y)) = true)
      by_cases hxy : x = y
      · subst hxy
        rw [if_pos rfl, if_pos rfl]
        exact strLE_total a.id b.id
      · rw [if_neg hxy, if_neg (Ne.symm hxy)]
        simp only [decide_eq_true_eq]
        omega

lemma rankLE_trans_none (a b c : Ranked) (ha : a.score = none) (hb : b.score = none)
    (hc : c.score = none) :
    rankLE a b = true → rankLE b c = true → rankLE a c = true := by
  unfold rankLE
  rw [ha, hb, hc]
  exact fun h1 h2 => strLE_trans a.id b.id c.id h1 h2

lemma rankLE_trans_some (a b c : Ranked) (x y z : ℕ) (hx : a.score = some x)
    (hy : b.score = some y) (hz : c.score = some z) :
    rankLE a b = true → rankLE b c = true → rankLE a c = true := by
  unfold rankLE
  rw [hx, hy, hz]
  show (if x = y then strLE a.id b.id else decide (y < x)) = true →
    (if y = z then strLE b.id c.id else decide (z < y)) = true →
    (if x = z then strLE a.id c.id else decide (z < x)) = true
  by_cases hxy : x = y <;> by_cases hyz : y = z
  · rw [if_pos hxy, if_pos hyz, if_pos (hxy.trans hyz)]
    exact fun h1 h2 => strLE_trans a.id b.id c.id h1 h2
  · rw [if_pos hxy, if_neg hyz]
    simp only [decide_eq_true_eq]
    intro _ h2
    rw [if_neg (by omega : ¬ x = z)]
    simp only [decide_eq_true_eq]
    omega
  · rw [if_neg hxy, if_pos hyz]
    simp only [decide_eq_true_eq]
    intro h1 _
    rw [if_neg (by omega : ¬ x = z)]
    simp only [decide_eq_true_eq]
    omega
  · rw [if_neg hxy, if_neg hyz]
    simp only [decide_eq_true_eq]
    intro h1 h2
    rw [if_neg (by omega : ¬ x = z)]
    simp only [decide_eq_true_eq]
    omega

lemma mem_insertRanked (a x : Ranked) :
    ∀ l : List Ranked, x ∈ insertRanked a l → x = a ∨ x ∈ l := by
  intro l
  induction l with
  | nil =>
    intro h
    rw [insertRanked] at h
    exact Or.inl (List.mem_singleton.1 h)
  | cons b rest ih =>
    intro h
    rw [insertRanked] at h
    by_cases hab : rankLE a b = true
    · rw [if_pos hab] at h
      rcases List.mem_cons.1 h with h | h
      · exact Or.inl h
      · exact Or.inr h
    · rw [if_neg hab] at h
      rcases List.mem_cons.1 h with h | h
      · exact Or.inr (List.mem_cons.2 (Or.inl h))
      · rcases ih h with h | h
        · exact Or.inl h
        · exact Or.inr (List.mem_cons.2 (Or.inr h))

lemma mem_sortRanked (x : Ranked) : ∀ l : List Ranked, x ∈ sortRanked l → x ∈ l := by
  intro l
  induction l with
  | nil => intro h; exact absurd h (by rw [sortRanked]; exact List.not_mem_nil x)
  | cons a rest ih =>
    intro h
    rw [sortRanked] at h
    rcases mem_insertRanked a x (sortRanked rest) h with rfl | h2
    · exact List.mem_cons_self x rest
    · exact List.mem_cons_of_mem a (ih h2)

lemma pairwise_insertRanked (P : Ranked → Prop)
    (htrans : ∀ a b c, P a → P b → P c →
      rankLE a b = true → rankLE b c = true → rankLE a c = true)
    (a : Ranked) (hPa : P a) :
    ∀ l : List Ranked, (∀ x ∈ l, P x) →
      l.Pairwise (fun x y => rankLE x y = true) →
      (insertRanked a l).Pairwise (fun x y => rankLE x y = true) := by
  intro l
  induction l with
  | nil =>
    intro _ _
    rw [insertRanked]
    exact List.pairwise_singleton _ a
  | cons b rest ih =>
    intro hPl hp
    rw [insertRanked]
    rcases List.pairwise_cons.1 hp with ⟨hb_rest, hp_rest⟩
    by_cases hab : rankLE a b = true
    · rw [if_pos hab]
      refine List.Pairwise.cons ?_ hp
      intro x hx
      rcases List.mem_cons.1 hx with rfl | hx2
      · exact hab
      · exact htrans a b x hPa (hPl b (List.mem_cons_self b rest))
          (hPl x (List.mem_cons_of_mem b hx2)) hab (hb_rest x hx2)
    · rw [if_neg hab]
      have hba : rankLE b a = true := (rankLE_total a b).resolve_left hab
      refine List.Pairwise.cons ?_
        (ih (fun x hx => hPl x (List.mem_cons_of_mem b hx)) hp_rest)
      intro x hx
      rcases mem_insertRanked a x rest hx with rfl | hx2
      · exact hba
      · exact hb_rest x hx2

lemma pairwise_sortRanked (P : Ranked → Prop)
    (htrans : ∀ a b c, P a → P b → P c →
      rankLE a b = true → rankLE b c = true → rankLE a c = true) :
    ∀ l : List Ranked, (∀ x ∈ l, P x) →
      (sortRanked l).Pairwise (fun x y => rankLE x y = true) := by
  intro l
  induction l with
  | nil => intro _; rw [sortRanked]; exact List.Pairwise.nil
  | cons a rest ih =>
    intro hPl
    rw [sortRanked]
    exact pairwise_insertRanked P htrans a (hPl a (List.mem_cons_self a rest))
      (sortRanked rest)
      (fun x hx => hPl x (List.mem_cons_of_mem a (mem_sortRanked x rest hx)))
      (ih (fun x hx => hPl x (List.mem_cons_of_mem a hx)))

lemma uniqLoop_scoreField_isSome (skill : Skill) :
    ∀ (l : List ExistingSkill) (m : ℚ) (b : Option String),
      (uniqLoop skill l m b).scoreField.isSome = true := by
  intro l
  induction l with
  | nil =>
    intro m b
    rw [uniqLoop]
    split_ifs <;> rfl
  | cons e rest ih =>
    intro m b
    rw [uniqLoop]
    by_cases h1 : e.id = skill.id
    · rw [if_pos h1]; rfl
    · rw [if_neg h1]
      show (if m < simOf skill e then uniqLoop skill rest (simOf skill e) (some e.id)
        else uniqLoop skill rest m b).scoreField.isSome = true
      by_cases h2 : m < simOf skill e
      · rw [if_pos h2]; exact ih _ _
      · rw [if_neg h2]; exact ih _ _

lemma rankSkill_score_isSome (now : ℚ) (skill : Skill) (e : ExistingSkill)
    (rest : List ExistingSkill) :
    (rankSkill now skill (e :: rest)).score.isSome = true := by
  have h := uniqLoop_scoreField_isSome skill (e :: rest) 0 none
  cases hu : (uniqLoop skill (e :: rest) 0 none).scoreField with
  | none => rw [hu] at h; exact absurd h (by decide)
  | some u => simp [rankSkill, scoreUniqueness, hu]

/-- Statement helper for the score-descending property of a record pair (the
numeric comparison of the claim, stated on the JS numbers both records carry). -/
def scoreDesc (x y : Ranked) : Prop :=
  ∀ a b : ℕ, x.score = some a → y.score = some b → b ≤ a

/-- C6: rankAll output is sorted — for adjacent records the score is
non-increasing (whenever both are numbers), and whenever the scores are equal
the ids are in nondecreasing lexicographic order. -/
theorem rankAll_sorted (now : ℚ) (discovered : List Skill) (existing : List ExistingSkill)
    (i : ℕ) (h : i + 1 < (rankAll now discovered existing).length) :
    (((rankAll now discovered existing).get ⟨i, Nat.lt_of_succ_lt h⟩).score
        = ((rankAll now discovered existing).get ⟨i + 1, h⟩).score →
      strLE ((rankAll now discovered existing).get ⟨i, Nat.lt_of_succ_lt h⟩).id
        ((rankAll now discovered existing).get ⟨i + 1, h⟩).id = true)
    ∧ scoreDesc ((rankAll now discovered existing).get ⟨i, Nat.lt_of_succ_lt h⟩)
        ((rankAll now discovered existing).get ⟨i + 1, h⟩) := by
  have hpw : (rankAll now discovered existing).Pairwise (fun x y => rankLE x y = true) := by
    unfold rankAll
    cases existing with
    | nil =>
      refine pairwise_sortRanked (fun r => r.score = none)
        (fun a b c ha hb hc => rankLE_trans_none a b c ha hb hc) _ ?_
      intro x hx
      rcases List.mem_map.1 hx with ⟨s, _, rfl⟩
      rfl
    | cons e rest =>
      refine pairwise_sortRanked (fun r => r.score.isSome = true)
        (fun a b c ha hb hc h1 h2 => ?_) _ ?_
      · rcases Option.isSome_iff_exists.1 ha with ⟨x, hx⟩
        rcases Option.isSome_iff_exists.1 hb with ⟨y, hy⟩
        rcases Option.isSome_iff_exists.1 hc with ⟨z, hz⟩
        exact rankLE_trans_some a b c x y z hx hy hz h1 h2
      · intro x hx
        rcases List.mem_map.1 hx with ⟨s, _, rfl⟩
        exact rankSkill_score_isSome now s e rest
  have hij : rankLE ((rankAll now discovered existing).get ⟨i, Nat.lt_of_succ_lt h⟩)
      ((rankAll now discovered existing).get ⟨i + 1, h⟩) = true := by
    refine List.pairwise_iff_get.1 hpw ⟨i, Nat.lt_of_succ_lt h⟩ ⟨i + 1, h⟩ ?_
    exact Nat.lt_succ_self i
  set x := (rankAll now discovered existing).get ⟨i, Nat.lt_of_succ_lt h⟩ with hxdef
  set y := (rankAll now discovered existing).get ⟨i + 1, h⟩ with hydef
  unfold rankLE at hij
  constructor
  · intro heq
    cases hx2 : x.score with
    | none =>
      rw [hx2, heq.symm.trans hx2] at hij
      exact hij
    | some a =>
      have hy2 : y.score = some a := heq ▸ hx2
      rw [hx2, hy2] at hij
      have hij2 : (if a = a then strLE x.id y.id else decide (a < a)) = true := hij
      rw [if_pos rfl] at hij2
      exact hij2
  · intro a b ha hb
    rw [ha, hb] at hij
    have hij2 : (if a = b then strLE x.id y.id else decide (b < a)) = true := hij
    by_cases hab : a = b
    · omega
    · rw [if_neg hab] at hij2
      simp only [decide_eq_true_eq] at hij2
      omega

/-- Skills used in the ordering witness. -/
def witnessSkillA : Skill :=
  ⟨"aaa", some "First", some "first description", none, none, none, none⟩

/-- Second skill used in the ordering witness. -/
def witnessSkillB : Skill :=
  ⟨"bbb", some "Second", some "second description", none, none, none, none⟩

/-- C6 witness: two concrete records ranked against the empty catalog, whose
equal (NaN) scores put the tie-break on the ids. -/
theorem rankAll_sorted_witness :
    strLE ((rankAll 0 [witnessSkillA, witnessSkillB] []).get ⟨0, by decide⟩).id
      ((rankAll 0 [witnessSkillA, witnessSkillB] []).get ⟨1, by decide⟩).id = true
    ∧ scoreDesc ((rankAll 0 [witnessSkillA, witnessSkillB] []).get ⟨0, by decide⟩)
      ((rankAll 0 [witnessSkillA, witnessSkillB] []).get ⟨1, by decide⟩) :=
  ⟨(rankAll_sorted 0 [witnessSkillA, witnessSkillB] [] 0 (by decide)).1 (by decide),
   (rankAll_sorted 0 [witnessSkillA, witnessSkillB] [] 0 (by decide)).2⟩

end Antigravity
